import Mathlib

/-!
Verification of the SmartRx prescription-analysis service (`app.py`).

The two core components are embedded shallowly:

* the response normalizer inside `analyze_prescription` (fence stripping,
  JSON parsing via `json.loads`, metadata attachment, accuracy computation),
  modelled over `List Char` for the raw text and an association list with
  Python-dict semantics for the parsed object;
* the rule engine `validate_prescription`, modelled over a typed record whose
  `Option` fields mirror Python's `dict.get` treatment of absent keys.

Machine floats are modelled as exact rationals; Python's `round(x, 2)`
(round-half-to-even) is `pyRound2`.
-/

namespace SmartRx

/-- JSON values as produced by Python's `json.loads`.  Objects carry their
fields in insertion order with unique keys (Python dict semantics). -/
inductive Json where
  | null
  | bool (b : Bool)
  | num (q : ℚ)
  | str (s : String)
  | arr (elems : List Json)
  | obj (fields : List (String × Json))

/-- Python dict membership test on an association list. -/
def hasKey (k : String) : List (String × Json) → Bool
  | [] => false
  | (k', _) :: rest => if k' = k then true else hasKey k rest

/-- Python `d[k] = v`: overwrite in place when the key is present (keeping its
original position), otherwise append at the end. -/
def setKey (kvs : List (String × Json)) (k : String) (v : Json) : List (String × Json) :=
  if hasKey k kvs then kvs.map (fun p => if p.1 = k then (k, v) else p)
  else kvs ++ [(k, v)]

/-- Python `d.get(k)` (with `None` as `none`). -/
def dictGet (k : String) : List (String × Json) → Option Json
  | [] => none
  | (k', v) :: rest => if k' = k then some v else dictGet k rest

/-! ### The JSON parser (model of `json.loads`) -/

/-- The whitespace characters skipped between JSON tokens. -/
def isJsonWs (c : Char) : Bool :=
  c == ' ' || c == '\t' || c == '\n' || c == '\r'

def skipWs (cs : List Char) : List Char := cs.dropWhile isJsonWs

/-- Value of a hexadecimal digit, for `\uXXXX` escapes. -/
def hexVal (c : Char) : Option Nat :=
  if c.isDigit then some (c.toNat - 48)
  else if 97 ≤ c.toNat ∧ c.toNat ≤ 102 then some (c.toNat - 87)
  else if 65 ≤ c.toNat ∧ c.toNat ≤ 70 then some (c.toNat - 55)
  else none

/-- Single-character escapes accepted inside JSON string literals. -/
def escChar (c : Char) : Option Char :=
  if c = '"' then some '"'
  else if c = '\\' then some '\\'
  else if c = '/' then some '/'
  else if c = 'b' then some (Char.ofNat 8)
  else if c = 'f' then some (Char.ofNat 12)
  else if c = 'n' then some '\n'
  else if c = 'r' then some '\r'
  else if c = 't' then some '\t'
  else none

/-- Body of a JSON string literal (the opening quote has been consumed);
returns the decoded characters and the input after the closing quote. -/
def parseStringBody : List Char → Option (List Char × List Char)
  | [] => none
  | '"' :: rest => some ([], rest)
  | '\\' :: 'u' :: a :: b :: c :: d :: rest =>
    match hexVal a, hexVal b, hexVal c, hexVal d with
    | some ha, some hb, some hc, some hd =>
      match parseStringBody rest with
      | some (s, r) => some (Char.ofNat (((ha * 16 + hb) * 16 + hc) * 16 + hd) :: s, r)
      | none => none
    | _, _, _, _ => none
  | '\\' :: e :: rest =>
    match escChar e with
    | some ec =>
      match parseStringBody rest with
      | some (s, r) => some (ec :: s, r)
      | none => none
    | none => none
  | c :: rest =>
    if c.toNat < 32 then none
    else
      match parseStringBody rest with
      | some (s, r) => some (c :: s, r)
      | none => none

def digitsToNat (ds : List Char) : Nat :=
  ds.foldl (fun n c => 10 * n + (c.toNat - 48)) 0

/-- Integer part of a JSON number: `0`, or a nonzero digit followed by digits. -/
def parseIntDigits : List Char → Option (List Char × List Char)
  | '0' :: rest => some (['0'], rest)
  | c :: rest =>
    if c.isDigit then some (c :: rest.takeWhile Char.isDigit, rest.dropWhile Char.isDigit)
    else none
  | [] => none

/-- Optional fractional part: a dot must be followed by at least one digit. -/
def parseFrac : List Char → Option (List Char × List Char)
  | '.' :: rest =>
    let ds := rest.takeWhile Char.isDigit
    if ds.isEmpty then none else some (ds, rest.dropWhile Char.isDigit)
  | cs => some ([], cs)

/-- Optional exponent part; yields (exponent is negative, digits, rest). -/
def parseExp : List Char → Option (Bool × List Char × List Char)
  | c :: rest =>
    if c = 'e' ∨ c = 'E' then
      let signed : Bool × List Char :=
        match rest with
        | '-' :: r => (true, r)
        | '+' :: r => (false, r)
        | _ => (false, rest)
      let ds := signed.2.takeWhile Char.isDigit
      if ds.isEmpty then none else some (signed.1, ds, signed.2.dropWhile Char.isDigit)
    else some (false, [], c :: rest)
  | [] => some (false, [], [])

/-- Exact rational value of a parsed JSON number. -/
def numValue (neg : Bool) (intD fracD : List Char) (expNeg : Bool) (expD : List Char) : ℚ :=
  let mant : ℚ := (digitsToNat (intD ++ fracD) : ℚ) / (10 : ℚ) ^ fracD.length
  let e := digitsToNat expD
  let mag : ℚ := if expNeg then mant / (10 : ℚ) ^ e else mant * (10 : ℚ) ^ e
  if neg then -mag else mag

/-- A JSON number following the strict grammar accepted by `json.loads`. -/
def parseNumber (cs : List Char) : Option (ℚ × List Char) :=
  let signed : Bool × List Char :=
    match cs with
    | '-' :: rest => (true, rest)
    | _ => (false, cs)
  match parseIntDigits signed.2 with
  | none => none
  | some (intD, cs2) =>
    match parseFrac cs2 with
    | none => none
    | some (fracD, cs3) =>
      match parseExp cs3 with
      | none => none
      | some (expNeg, expD, cs4) => some (numValue signed.1 intD fracD expNeg expD, cs4)

/-- Consume an expected literal tail (for `true` / `false` / `null`). -/
def dropLit (lit cs : List Char) : Option (List Char) :=
  if lit.isPrefixOf cs then some (cs.drop lit.length) else none

mutual

/-- One JSON value (leading whitespace allowed), fueled for termination. -/
def parseValue : Nat → List Char → Option (Json × List Char)
  | 0, _ => none
  | fuel + 1, cs =>
    match skipWs cs with
    | [] => none
    | '\x7b' :: rest =>
      match parseMembers fuel rest [] true with
      | some (kvs, r) => some (Json.obj kvs, r)
      | none => none
    | '[' :: rest =>
      match parseElems fuel rest [] true with
      | some (elems, r) => some (Json.arr elems, r)
      | none => none
    | '"' :: rest =>
      match parseStringBody rest with
      | some (s, r) => some (Json.str s.asString, r)
      | none => none
    | 't' :: rest =>
      match dropLit "rue".data rest with
      | some r => some (Json.bool true, r)
      | none => none
    | 'f' :: rest =>
      match dropLit "alse".data rest with
      | some r => some (Json.bool false, r)
      | none => none
    | 'n' :: rest =>
      match dropLit "ull".data rest with
      | some r => some (Json.null, r)
      | none => none
    | cs' =>
      match parseNumber cs' with
      | some (q, r) => some (Json.num q, r)
      | none => none

/-- Elements of a JSON array, after the opening bracket. -/
def parseElems : Nat → List Char → List Json → Bool → Option (List Json × List Char)
  | 0, _, _, _ => none
  | fuel + 1, cs, acc, first =>
    match first, skipWs cs with
    | true, ']' :: rest => some ([], rest)
    | _, cs1 =>
      match parseValue fuel cs1 with
      | none => none
      | some (j, r) =>
        match skipWs r with
        | ',' :: r2 => parseElems fuel r2 (acc ++ [j]) false
        | ']' :: r2 => some (acc ++ [j], r2)
        | _ => none

/-- Members of a JSON object, after the opening brace; duplicate keys are
resolved like Python dicts (last value wins, first position kept). -/
def parseMembers : Nat → List Char → List (String × Json) → Bool → Option (List (String × Json) × List Char)
  | 0, _, _, _ => none
  | fuel + 1, cs, acc, first =>
    match first, skipWs cs with
    | true, '\x7d' :: rest => some (acc, rest)
    | _, cs1 =>
      match cs1 with
      | '"' :: rest =>
        match parseStringBody rest with
        | none => none
        | some (k, r) =>
          match skipWs r with
          | ':' :: r2 =>
            match parseValue fuel r2 with
            | none => none
            | some (v, r3) =>
              match skipWs r3 with
              | ',' :: r4 => parseMembers fuel r4 (setKey acc k.asString v) false
              | '\x7d' :: r4 => some (setKey acc k.asString v, r4)
              | _ => none
          | _ => none
      | _ => none

end

/-- Model of `json.loads`: parse one value and require only whitespace after. -/
def json_loads (cs : List Char) : Option Json :=
  match parseValue (2 * cs.length + 4) cs with
  | some (j, rest) => if (skipWs rest).isEmpty then some j else none
  | none => none

/-! ### String trimming and fence stripping (`app.py` lines 107–117) -/

/-- Characters removed by Python's `str.strip()`. -/
def isStripWs (c : Char) : Bool :=
  c == ' ' || c == '\t' || c == '\n' || c == '\r' || c == '\x0b' || c == '\x0c'

def trimLeft (cs : List Char) : List Char := cs.dropWhile isStripWs

def trimRight (cs : List Char) : List Char := (cs.reverse.dropWhile isStripWs).reverse

/-- Python `str.strip()`. -/
def trimBoth (cs : List Char) : List Char := trimRight (trimLeft cs)

/-- The language-tagged fence marker. -/
def fenceJson : List Char := "```json".data

/-- The bare fence marker. -/
def fence : List Char := "```".data

/-- Lines 107–117 of `app.py`: strip, remove markdown code-block markers
(each of the three checks independently), and strip again. -/
def stripFences (cs : List Char) : List Char :=
  let t0 := trimBoth cs
  let t1 := if fenceJson.isPrefixOf t0 then t0.drop 7 else t0
  let t2 := if fence.isPrefixOf t1 then t1.drop 3 else t1
  let t3 := if fence.isSuffixOf t2 then t2.take (t2.length - 3) else t2
  trimBoth t3

/-! ### Rounding (Python `round(x, 2)` on exact rationals) -/

/-- Round-half-to-even to an integer, as Python's builtin `round`. -/
def roundHalfEven (q : ℚ) : ℤ :=
  if q - (⌊q⌋ : ℚ) < 1 / 2 then ⌊q⌋
  else if (1 : ℚ) / 2 < q - (⌊q⌋ : ℚ) then ⌊q⌋ + 1
  else if ⌊q⌋ % 2 = 0 then ⌊q⌋ else ⌊q⌋ + 1

/-- Python `round(x, 2)`. -/
def pyRound2 (x : ℚ) : ℚ := (roundHalfEven (x * 100) : ℚ) / 100

/-! ### The normalizer (`analyze_prescription`, lines 107–132) -/

/-- Failure modes of the normalization path: a `json.JSONDecodeError` (which
carries the stripped response text back to the caller as `raw_response`), or
any other exception from the metadata/accuracy steps (the generic 500). -/
inductive NormError where
  | malformedPayload (raw_response : String)
  | analysisFailed
deriving DecidableEq

/-- `result.get('confidence_score', 0.0)` followed by `accuracy * 100`:
absent means `0.0`; Python booleans are ints; any other non-numeric value
makes `round` raise `TypeError` (the generic failure path). -/
def confidence_value : Option Json → Option ℚ
  | none => some 0
  | some (Json.num q) => some q
  | some (Json.bool b) => some (if b then 1 else 0)
  | some _ => none

/-- The normalization core of `analyze_prescription` (lines 107–132): the raw
model text comes in, the response record goes out.  The timestamp is passed in
as `now` (the code reads the clock at this point). -/
def analyze_prescription (raw : List Char) (now : String) :
    Except NormError (List (String × Json)) :=
  let response_text := stripFences raw
  match json_loads response_text with
  | none => Except.error (NormError.malformedPayload response_text.asString)
  | some (Json.obj result) =>
    let result := setKey result "analyzed_at" (Json.str now)
    let result := setKey result "model_version" (Json.str "gemini-1.5-flash")
    match confidence_value (dictGet "confidence_score" result) with
    | none => Except.error NormError.analysisFailed
    | some accuracy =>
      Except.ok (setKey result "accuracy_percentage" (Json.num (pyRound2 (accuracy * 100))))
  | some _ => Except.error NormError.analysisFailed

/-! ### The validation engine (`validate_prescription`, lines 149–185) -/

/-- A medication entry as read by the validator; `none` models an absent key
(Python `med.get(...)` returning `None`). -/
structure MedicationEntry where
  name : Option String
  dosage : Option String
  frequency : Option String
  duration : Option String
deriving DecidableEq

/-- The request body of `/validate` as read by the validator; `none` models an
absent key.  Keys the endpoint never reads are omitted. -/
structure PrescriptionInput where
  patient_name : Option String
  doctor_name : Option String
  medications : Option (List MedicationEntry)
  confidence_score : Option ℚ
deriving DecidableEq

structure ValidationResult where
  is_valid : Bool
  warnings : List String
  errors : List String
deriving DecidableEq

/-- Python truthiness test `not data.get(k)` for a string-valued key. -/
def falsyStr : Option String → Bool
  | none => true
  | some s => s.isEmpty

/-- Python truthiness test for the medications list
(`not data.get('medications') or len(data['medications']) == 0`). -/
def falsyMeds : Option (List MedicationEntry) → Bool
  | none => true
  | some l => l.isEmpty

/-- The per-medication loop of `validate_prescription` (lines 173–179). -/
def checkMeds : List MedicationEntry → ValidationResult → ValidationResult
  | [], res => res
  | med :: rest, res =>
    let res1 :=
      if falsyStr med.name then
        { res with errors := res.errors ++ ["Medication name missing"], is_valid := false }
      else res
    let res2 :=
      if falsyStr med.dosage then
        { res1 with
            warnings := res1.warnings ++ ["Dosage missing for " ++ med.name.getD "unknown medication"] }
      else res1
    checkMeds rest res2

/-- `validate_prescription` (lines 149–185), rule for rule in source order. -/
def validate_prescription (data : PrescriptionInput) : ValidationResult :=
  let r0 : ValidationResult := { is_valid := true, warnings := [], errors := [] }
  let r1 :=
    if falsyStr data.patient_name then
      { r0 with warnings := r0.warnings ++ ["Patient name is missing"] }
    else r0
  let r2 :=
    if falsyStr data.doctor_name then
      { r1 with warnings := r1.warnings ++ ["Doctor name is missing"] }
    else r1
  let r3 :=
    if falsyMeds data.medications then
      { r2 with errors := r2.errors ++ ["No medications found"], is_valid := false }
    else r2
  let r4 := checkMeds (data.medications.getD []) r3
  if data.confidence_score.getD 0 < 0.85 then
    { r4 with warnings := r4.warnings ++ ["Low confidence score - manual review recommended"] }
  else r4

/-! ### Lemmas about trimming and fence stripping -/

lemma trimLeft_cons_ws {c : Char} (hc : isStripWs c = true) (xs : List Char) :
    trimLeft (c :: xs) = trimLeft xs := by
  simp [trimLeft, List.dropWhile_cons, hc]

lemma trimRight_append_ws {c : Char} (hc : isStripWs c = true) (xs : List Char) :
    trimRight (xs ++ [c]) = trimRight xs := by
  simp [trimRight, List.dropWhile_cons, hc]

lemma trimBoth_cons_ws {c : Char} (hc : isStripWs c = true) (xs : List Char) :
    trimBoth (c :: xs) = trimBoth xs := by
  simp [trimBoth, trimLeft_cons_ws hc]

lemma trimBoth_append_ws {c : Char} (hc : isStripWs c = true) (xs : List Char) :
    trimBoth (xs ++ [c]) = trimBoth xs := by
  unfold trimBoth trimLeft
  rw [List.dropWhile_append]
  cases he : (List.dropWhile isStripWs xs).isEmpty
  · rw [if_neg (by simp [he])]
    exact trimRight_append_ws hc _
  · rw [if_pos (by simp [he])]
    simp [List.dropWhile_cons, hc, List.isEmpty_iff.mp he]

lemma trimRight_prefix (l : List Char) : trimRight l <+: l := by
  have h := List.dropWhile_suffix (l := l.reverse) isStripWs
  simpa [trimRight] using List.reverse_prefix.mpr h

lemma trim_fixed_point {p : List Char} (h : trimBoth p = p) :
    trimLeft p = p ∧ trimRight p = p := by
  have hsuf : trimLeft p <:+ p := List.dropWhile_suffix _
  have hpre : trimRight (trimLeft p) <+: trimLeft p := trimRight_prefix _
  have hlen : p.length ≤ (trimLeft p).length := by
    calc p.length = (trimRight (trimLeft p)).length := by rw [show trimRight (trimLeft p) = p from h]
    _ ≤ (trimLeft p).length := hpre.length_le
  have hL : trimLeft p = p :=
    hsuf.eq_of_length (Nat.le_antisymm hsuf.length_le hlen)
  refine ⟨hL, ?_⟩
  rw [trimBoth, hL] at h
  exact h

lemma trimLeft_fenceJson_append (X : List Char) :
    trimLeft (fenceJson ++ X) = fenceJson ++ X := by
  unfold trimLeft
  rw [List.dropWhile_append]
  have h1 : List.dropWhile isStripWs fenceJson = fenceJson := by decide
  rw [h1]
  have h2 : fenceJson.isEmpty = false := by decide
  simp [h2]

lemma trimLeft_fence_append (X : List Char) :
    trimLeft (fence ++ X) = fence ++ X := by
  unfold trimLeft
  rw [List.dropWhile_append]
  have h1 : List.dropWhile isStripWs fence = fence := by decide
  rw [h1]
  have h2 : fence.isEmpty = false := by decide
  simp [h2]

lemma trimRight_append_fence (X : List Char) :
    trimRight (X ++ fence) = X ++ fence := by
  unfold trimRight
  rw [List.reverse_append, List.dropWhile_append]
  have h1 : List.dropWhile isStripWs fence.reverse = fence.reverse := by decide
  rw [h1]
  have h2 : fence.reverse.isEmpty = false := by decide
  simp [h2]

lemma trimRight_append_of_fixed (A : List Char) {p : List Char}
    (hp : trimRight p = p) (hne : p ≠ []) : trimRight (A ++ p) = A ++ p := by
  have hrev : List.dropWhile isStripWs p.reverse = p.reverse := by
    have := congrArg List.reverse hp
    simpa [trimRight] using this
  unfold trimRight
  rw [List.reverse_append, List.dropWhile_append, hrev]
  have h2 : p.reverse.isEmpty = false := by
    simp [List.isEmpty_iff, hne]
  simp [h2]

lemma fence_prefix_fenceJson : fence <+: fenceJson := by decide

lemma fenceJson_isPrefixOf_false {p : List Char} (h2 : fence.isPrefixOf p = false) :
    fenceJson.isPrefixOf p = false := by
  cases hb : fenceJson.isPrefixOf p
  · rfl
  · exfalso
    have hj : fenceJson <+: p := List.isPrefixOf_iff_prefix.mp hb
    have hf : fence <+: p := fence_prefix_fenceJson.trans hj
    rw [← List.isPrefixOf_iff_prefix] at hf
    rw [h2] at hf
    exact Bool.false_ne_true hf

lemma fence_isPrefixOf_newline (X : List Char) :
    fence.isPrefixOf ('\n' :: X) = false := rfl

lemma fenceJson_isPrefixOf_fence_newline (X : List Char) :
    fenceJson.isPrefixOf (fence ++ '\n' :: X) = false := rfl

lemma fence_isSuffixOf_newline {p : List Char} (h3 : fence.isSuffixOf p = false) :
    fence.isSuffixOf ('\n' :: p) = false := by
  cases hb : fence.isSuffixOf ('\n' :: p)
  · rfl
  · exfalso
    obtain ⟨t, ht⟩ := List.isSuffixOf_iff_suffix.mp hb
    cases t with
    | nil =>
      simp only [List.nil_append] at ht
      have hh : fence.head? = some '\n' := by rw [ht]; rfl
      exact absurd hh (by decide)
    | cons c t' =>
      simp only [List.cons_append, List.cons.injEq] at ht
      have hs : fence <:+ p := ht.2 ▸ ⟨t', rfl⟩
      rw [← List.isSuffixOf_iff_suffix] at hs
      rw [h3] at hs
      exact Bool.false_ne_true hs

lemma isSuffixOf_append_fence (Y : List Char) :
    fence.isSuffixOf (Y ++ fence) = true :=
  List.isSuffixOf_iff_suffix.mpr (List.suffix_append Y fence)

lemma take_sub_append_fence (Y : List Char) :
    (Y ++ fence).take ((Y ++ fence).length - 3) = Y := by
  have hlen : Y.length = (Y ++ fence).length - 3 := by
    simp [List.length_append, show fence.length = 3 from rfl]
  exact List.take_left' hlen

lemma stripFences_clean {p : List Char} (h1 : trimBoth p = p)
    (h2 : fence.isPrefixOf p = false) (h3 : fence.isSuffixOf p = false) :
    stripFences p = p := by
  unfold stripFences
  dsimp only
  rw [h1, fenceJson_isPrefixOf_false h2, if_neg Bool.false_ne_true,
    h2, if_neg Bool.false_ne_true, h3, if_neg Bool.false_ne_true]
  exact h1

lemma analyze_eq_of_stripFences {raw1 raw2 : List Char} (now : String)
    (h : stripFences raw1 = stripFences raw2) :
    analyze_prescription raw1 now = analyze_prescription raw2 now := by
  unfold analyze_prescription
  dsimp only
  rw [h]

lemma stripFences_wrapJsonClosed (p : List Char) (h1 : trimBoth p = p) :
    stripFences (fenceJson ++ ('\n' :: (p ++ ('\n' :: fence)))) = p := by
  unfold stripFences
  dsimp only
  have assoc1 : fenceJson ++ ('\n' :: (p ++ ('\n' :: fence)))
      = (fenceJson ++ (('\n' :: p) ++ ['\n'])) ++ fence := by simp
  have e0 : trimBoth (fenceJson ++ ('\n' :: (p ++ ('\n' :: fence))))
      = fenceJson ++ ('\n' :: (p ++ ('\n' :: fence))) := by
    unfold trimBoth
    rw [trimLeft_fenceJson_append, assoc1]
    exact trimRight_append_fence _
  rw [e0]
  have e1 : fenceJson.isPrefixOf (fenceJson ++ ('\n' :: (p ++ ('\n' :: fence)))) = true :=
    List.isPrefixOf_iff_prefix.mpr (List.prefix_append _ _)
  rw [e1, if_pos rfl]
  have e2 : List.drop 7 (fenceJson ++ ('\n' :: (p ++ ('\n' :: fence))))
      = '\n' :: (p ++ ('\n' :: fence)) := List.drop_left' (by rfl)
  rw [e2, fence_isPrefixOf_newline, if_neg Bool.false_ne_true]
  have assoc2 : '\n' :: (p ++ ('\n' :: fence)) = (('\n' :: p) ++ ['\n']) ++ fence := by simp
  rw [assoc2, isSuffixOf_append_fence, if_pos rfl, take_sub_append_fence,
    List.cons_append, trimBoth_cons_ws (by decide), trimBoth_append_ws (by decide)]
  exact h1

lemma stripFences_wrapBareClosed (p : List Char) (h1 : trimBoth p = p) :
    stripFences (fence ++ ('\n' :: (p ++ ('\n' :: fence)))) = p := by
  unfold stripFences
  dsimp only
  have assoc1 : fence ++ ('\n' :: (p ++ ('\n' :: fence)))
      = (fence ++ (('\n' :: p) ++ ['\n'])) ++ fence := by simp
  have e0 : trimBoth (fence ++ ('\n' :: (p ++ ('\n' :: fence))))
      = fence ++ ('\n' :: (p ++ ('\n' :: fence))) := by
    unfold trimBoth
    rw [trimLeft_fence_append, assoc1]
    exact trimRight_append_fence _
  rw [e0, fenceJson_isPrefixOf_fence_newline, if_neg Bool.false_ne_true]
  have e1 : fence.isPrefixOf (fence ++ ('\n' :: (p ++ ('\n' :: fence)))) = true :=
    List.isPrefixOf_iff_prefix.mpr (List.prefix_append _ _)
  rw [e1, if_pos rfl]
  have e2 : List.drop 3 (fence ++ ('\n' :: (p ++ ('\n' :: fence))))
      = '\n' :: (p ++ ('\n' :: fence)) := List.drop_left' (by rfl)
  rw [e2]
  have assoc2 : '\n' :: (p ++ ('\n' :: fence)) = (('\n' :: p) ++ ['\n']) ++ fence := by simp
  rw [assoc2, isSuffixOf_append_fence, if_pos rfl, take_sub_append_fence,
    List.cons_append, trimBoth_cons_ws (by decide), trimBoth_append_ws (by decide)]
  exact h1

lemma stripFences_wrapJsonOpen (p : List Char) (h1 : trimBoth p = p)
    (hne : p ≠ []) (h3 : fence.isSuffixOf p = false) :
    stripFences (fenceJson ++ ('\n' :: p)) = p := by
  obtain ⟨hL, hR⟩ := trim_fixed_point h1
  unfold stripFences
  dsimp only
  have assoc1 : fenceJson ++ ('\n' :: p) = (fenceJson ++ ['\n']) ++ p := by simp
  have e0 : trimBoth (fenceJson ++ ('\n' :: p)) = fenceJson ++ ('\n' :: p) := by
    unfold trimBoth
    rw [trimLeft_fenceJson_append, assoc1]
    exact trimRight_append_of_fixed _ hR hne
  rw [e0]
  have e1 : fenceJson.isPrefixOf (fenceJson ++ ('\n' :: p)) = true :=
    List.isPrefixOf_iff_prefix.mpr (List.prefix_append _ _)
  rw [e1, if_pos rfl]
  have e2 : List.drop 7 (fenceJson ++ ('\n' :: p)) = '\n' :: p := List.drop_left' (by rfl)
  rw [e2, fence_isPrefixOf_newline, if_neg Bool.false_ne_true,
    fence_isSuffixOf_newline h3, if_neg Bool.false_ne_true,
    trimBoth_cons_ws (by decide)]
  exact h1

lemma stripFences_wrapBareOpen (p : List Char) (h1 : trimBoth p = p)
    (hne : p ≠ []) (h3 : fence.isSuffixOf p = false) :
    stripFences (fence ++ ('\n' :: p)) = p := by
  obtain ⟨hL, hR⟩ := trim_fixed_point h1
  unfold stripFences
  dsimp only
  have assoc1 : fence ++ ('\n' :: p) = (fence ++ ['\n']) ++ p := by simp
  have e0 : trimBoth (fence ++ ('\n' :: p)) = fence ++ ('\n' :: p) := by
    unfold trimBoth
    rw [trimLeft_fence_append, assoc1]
    exact trimRight_append_of_fixed _ hR hne
  rw [e0, fenceJson_isPrefixOf_fence_newline, if_neg Bool.false_ne_true]
  have e1 : fence.isPrefixOf (fence ++ ('\n' :: p)) = true :=
    List.isPrefixOf_iff_prefix.mpr (List.prefix_append _ _)
  rw [e1, if_pos rfl]
  have e2 : List.drop 3 (fence ++ ('\n' :: p)) = '\n' :: p := List.drop_left' (by rfl)
  rw [e2, fence_isSuffixOf_newline h3, if_neg Bool.false_ne_true,
    trimBoth_cons_ws (by decide)]
  exact h1

/-- C6: normalizing a clean structured payload (trimmed, carrying no leading or
trailing fence marker) wrapped in either fence style — language-tagged
(```json) or bare (```), with or without the closing ``` — gives exactly the
same outcome as normalizing the bare payload.  The always-refreshed
`analyzed_at` timestamp is the `now` argument, held equal on both sides. -/
theorem C6_normalize_fence_insensitive (p : List Char) (now : String)
    (h1 : trimBoth p = p) (h2 : fence.isPrefixOf p = false)
    (h3 : fence.isSuffixOf p = false) :
    analyze_prescription (fenceJson ++ ('\n' :: (p ++ ('\n' :: fence)))) now
        = analyze_prescription p now
    ∧ analyze_prescription (fence ++ ('\n' :: (p ++ ('\n' :: fence)))) now
        = analyze_prescription p now
    ∧ analyze_prescription (fenceJson ++ ('\n' :: p)) now = analyze_prescription p now
    ∧ analyze_prescription (fence ++ ('\n' :: p)) now = analyze_prescription p now := by
  have hclean : stripFences p = p := stripFences_clean h1 h2 h3
  by_cases hne : p = []
  · subst hne
    exact ⟨analyze_eq_of_stripFences now (by decide),
      analyze_eq_of_stripFences now (by decide),
      analyze_eq_of_stripFences now (by decide),
      analyze_eq_of_stripFences now (by decide)⟩
  · refine ⟨analyze_eq_of_stripFences now ?_, analyze_eq_of_stripFences now ?_,
      analyze_eq_of_stripFences now ?_, analyze_eq_of_stripFences now ?_⟩
    · rw [stripFences_wrapJsonClosed p h1, hclean]
    · rw [stripFences_wrapBareClosed p h1, hclean]
    · rw [stripFences_wrapJsonOpen p h1 hne h3, hclean]
    · rw [stripFences_wrapBareOpen p h1 hne h3, hclean]

/-- Witness for C6 at the concrete clean payload `{"a":1}`. -/
theorem C6_witness :
    analyze_prescription (fenceJson ++ ('\n' :: ((String.data "\x7b\"a\":1\x7d") ++ ('\n' :: fence)))) "T"
      = analyze_prescription (String.data "\x7b\"a\":1\x7d") "T" :=
  (C6_normalize_fence_insensitive (String.data "\x7b\"a\":1\x7d") "T"
    (by decide) (by decide) (by decide)).1

/-! ### Lemmas about the validation engine -/

lemma checkMeds_invariant (l : List MedicationEntry) (res : ValidationResult)
    (h : res.is_valid = res.errors.isEmpty) :
    (checkMeds l res).is_valid = (checkMeds l res).errors.isEmpty := by
  induction l generalizing res with
  | nil => exact h
  | cons m rest ih =>
    simp only [checkMeds]
    apply ih
    dsimp only
    split_ifs <;> simp_all [List.isEmpty_iff]

lemma checkMeds_clean (l : List MedicationEntry) (res : ValidationResult)
    (h : ∀ m ∈ l, falsyStr m.name = false ∧ falsyStr m.dosage = false) :
    checkMeds l res = res := by
  induction l with
  | nil => rfl
  | cons m rest ih =>
    have hm := h m (List.mem_cons_self m rest)
    simp only [checkMeds]
    rw [if_neg (by simp [hm.2]), if_neg (by simp [hm.1])]
    exact ih fun x hx => h x (List.mem_cons_of_mem m hx)

/-- C2: for every input record, `is_valid` is `false` exactly when the
`errors` list is non-empty; the `warnings` list plays no role in validity. -/
theorem C2_is_valid_iff_errors (d : PrescriptionInput) :
    (validate_prescription d).is_valid = false ↔ (validate_prescription d).errors ≠ [] := by
  have key : (validate_prescription d).is_valid = (validate_prescription d).errors.isEmpty := by
    unfold validate_prescription
    dsimp only
    split_ifs <;> (apply checkMeds_invariant; simp)
  rw [key]
  exact List.isEmpty_eq_false

/-- The record-level empty-medications rule, shared by several results below:
whenever the medications key is absent or holds the empty list, the verdict is
invalid with exactly the single error `"No medications found"`. -/
lemma validate_empty_meds (d : PrescriptionInput) (h : d.medications.getD [] = []) :
    (validate_prescription d).is_valid = false
    ∧ (validate_prescription d).errors = ["No medications found"] := by
  have hm : falsyMeds d.medications = true := by
    cases hmm : d.medications with
    | none => rfl
    | some l =>
      rw [hmm] at h
      simp only [Option.getD_some] at h
      simp [falsyMeds, h]
  unfold validate_prescription
  dsimp only
  rw [h, hm, if_pos rfl]
  simp only [checkMeds]
  split_ifs <;> exact ⟨rfl, rfl⟩

/-- C3 as stated is refuted by a record whose medications list is empty while
all element-wise and scalar hypotheses hold: validation still fails. -/
theorem C3_counterexample :
    (∀ m ∈ (PrescriptionInput.mk (some "Jane") (some "Dr. X") (some []) (some (9 / 10))).medications.getD [],
        m.name.getD "" ≠ "" ∧ m.dosage.getD "" ≠ "")
    ∧ (PrescriptionInput.mk (some "Jane") (some "Dr. X") (some []) (some (9 / 10))).patient_name.getD "" ≠ ""
    ∧ (PrescriptionInput.mk (some "Jane") (some "Dr. X") (some []) (some (9 / 10))).doctor_name.getD "" ≠ ""
    ∧ (0.85 : ℚ) ≤ (PrescriptionInput.mk (some "Jane") (some "Dr. X") (some []) (some (9 / 10))).confidence_score.getD 0
    ∧ (validate_prescription (PrescriptionInput.mk (some "Jane") (some "Dr. X") (some []) (some (9 / 10)))).is_valid = false := by
  refine ⟨by simp, by decide, by decide, by norm_num,
    (validate_empty_meds (PrescriptionInput.mk (some "Jane") (some "Dr. X") (some [])
      (some (9 / 10))) rfl).1⟩

lemma falsyStr_eq_false_iff (o : Option String) : falsyStr o = false ↔ o.getD "" ≠ "" := by
  cases o with
  | none => simp [falsyStr]
  | some s =>
    simp only [falsyStr, Option.getD_some]
    constructor
    · intro h he
      rw [he] at h
      exact absurd h (by decide)
    · intro h
      cases hb : s.isEmpty
      · rfl
      · exact absurd ((String.isEmpty_iff s).mp hb) h

/-- C3 amended: with the additional (forced) hypothesis that the medications
list is present and non-empty, the claim holds: every medication with
non-empty name and dosage, non-empty patient and doctor names, and confidence
at least 0.85 yield a valid verdict with no warnings. -/
theorem C3_amended_valid_no_warnings (d : PrescriptionInput) (l : List MedicationEntry)
    (hm : d.medications = some l) (hl : l ≠ [])
    (hmeds : ∀ m ∈ l, m.name.getD "" ≠ "" ∧ m.dosage.getD "" ≠ "")
    (hp : d.patient_name.getD "" ≠ "") (hd : d.doctor_name.getD "" ≠ "")
    (hc : (0.85 : ℚ) ≤ d.confidence_score.getD 0) :
    (validate_prescription d).is_valid = true ∧ (validate_prescription d).warnings = [] := by
  have hp' : falsyStr d.patient_name = false := (falsyStr_eq_false_iff _).mpr hp
  have hd' : falsyStr d.doctor_name = false := (falsyStr_eq_false_iff _).mpr hd
  have hm' : falsyMeds d.medications = false := by
    rw [hm]
    simpa [falsyMeds] using hl
  have hmeds' : ∀ m ∈ l, falsyStr m.name = false ∧ falsyStr m.dosage = false := by
    intro m hx
    exact ⟨(falsyStr_eq_false_iff _).mpr (hmeds m hx).1,
      (falsyStr_eq_false_iff _).mpr (hmeds m hx).2⟩
  unfold validate_prescription
  dsimp only
  rw [hp', if_neg Bool.false_ne_true, hd', if_neg Bool.false_ne_true,
    hm', if_neg Bool.false_ne_true, hm]
  rw [show (some l).getD [] = l from rfl, checkMeds_clean l _ hmeds',
    if_neg (not_lt.mpr hc)]
  exact ⟨rfl, rfl⟩

/-- Witness for C3 amended at a concrete fully-populated record. -/
theorem C3_amended_witness :
    (validate_prescription (PrescriptionInput.mk (some "Jane") (some "Dr. X")
        (some [MedicationEntry.mk (some "Amoxicillin") (some "500mg") none none])
        (some (9 / 10)))).is_valid = true
    ∧ (validate_prescription (PrescriptionInput.mk (some "Jane") (some "Dr. X")
        (some [MedicationEntry.mk (some "Amoxicillin") (some "500mg") none none])
        (some (9 / 10)))).warnings = [] :=
  C3_amended_valid_no_warnings _ _ rfl (by simp) (by decide) (by decide) (by decide) (by norm_num)

/-- C7: a record whose medications sequence is empty (or absent, which Python
reads identically) is invalid with exactly one error, `"No medications found"`. -/
theorem C7_empty_meds_single_error (d : PrescriptionInput)
    (h : d.medications.getD [] = []) :
    (validate_prescription d).is_valid = false
    ∧ (validate_prescription d).errors = ["No medications found"] :=
  validate_empty_meds d h

/-- Witness for C7 at a record with `medications = []`. -/
theorem C7_witness :
    (validate_prescription (PrescriptionInput.mk none none (some []) none)).is_valid = false
    ∧ (validate_prescription (PrescriptionInput.mk none none (some []) none)).errors
        = ["No medications found"] :=
  C7_empty_meds_single_error _ (by decide)

/-- C9: the validator treats an absent key exactly like its empty value —
for the medications list, the patient name and the doctor name. -/
theorem C9_absent_eq_empty (d : PrescriptionInput) :
    validate_prescription { d with medications := none }
        = validate_prescription { d with medications := some [] }
    ∧ validate_prescription { d with patient_name := none }
        = validate_prescription { d with patient_name := some "" }
    ∧ validate_prescription { d with doctor_name := none }
        = validate_prescription { d with doctor_name := some "" } :=
  ⟨rfl, rfl, rfl⟩

/-! ### Lemmas about the dict operations and the normalizer -/

lemma dictGet_map_overwrite (kvs : List (String × Json)) {k k' : String} (v : Json)
    (hne : k ≠ k') :
    dictGet k (kvs.map (fun p => if p.1 = k' then (k', v) else p)) = dictGet k kvs := by
  induction kvs with
  | nil => rfl
  | cons a rest ih =>
    obtain ⟨ak, av⟩ := a
    simp only [List.map_cons]
    dsimp only
    by_cases hak : ak = k'
    · subst hak
      rw [if_pos rfl]
      simp only [dictGet]
      rw [if_neg (Ne.symm hne), if_neg (Ne.symm hne)]
      exact ih
    · rw [if_neg hak]
      simp only [dictGet]
      by_cases h2 : ak = k
      · rw [if_pos h2, if_pos h2]
      · rw [if_neg h2, if_neg h2]
        exact ih

lemma dictGet_append_single (kvs : List (String × Json)) {k k' : String} (v : Json)
    (hne : k ≠ k') :
    dictGet k (kvs ++ [(k', v)]) = dictGet k kvs := by
  induction kvs with
  | nil =>
    simp only [List.nil_append, dictGet]
    rw [if_neg (Ne.symm hne)]
  | cons a rest ih =>
    obtain ⟨ak, av⟩ := a
    simp only [List.cons_append, dictGet]
    by_cases h2 : ak = k
    · rw [if_pos h2, if_pos h2]
    · rw [if_neg h2, if_neg h2]
      exact ih

lemma dictGet_setKey_ne (kvs : List (String × Json)) {k k' : String} (v : Json)
    (hne : k ≠ k') : dictGet k (setKey kvs k' v) = dictGet k kvs := by
  unfold setKey
  split_ifs
  · exact dictGet_map_overwrite kvs v hne
  · exact dictGet_append_single kvs v hne

lemma dictGet_map_overwrite_self (kvs : List (String × Json)) {k : String} (v : Json)
    (hh : hasKey k kvs = true) :
    dictGet k (kvs.map (fun p => if p.1 = k then (k, v) else p)) = some v := by
  induction kvs with
  | nil => exact absurd hh (by simp [hasKey])
  | cons a rest ih =>
    obtain ⟨ak, av⟩ := a
    simp only [List.map_cons]
    dsimp only
    by_cases hak : ak = k
    · subst hak
      rw [if_pos rfl]
      simp [dictGet]
    · rw [if_neg hak]
      simp only [dictGet]
      rw [if_neg hak]
      apply ih
      simp only [hasKey, if_neg hak] at hh
      exact hh

lemma dictGet_append_single_self (kvs : List (String × Json)) {k : String} (v : Json)
    (hh : hasKey k kvs = false) : dictGet k (kvs ++ [(k, v)]) = some v := by
  induction kvs with
  | nil =>
    simp [dictGet]
  | cons a rest ih =>
    obtain ⟨ak, av⟩ := a
    simp only [hasKey] at hh
    by_cases hak : ak = k
    · rw [if_pos hak] at hh
      exact absurd hh (by simp)
    · rw [if_neg hak] at hh
      simp only [List.cons_append, dictGet]
      rw [if_neg hak]
      exact ih hh

lemma dictGet_setKey_self (kvs : List (String × Json)) (k : String) (v : Json) :
    dictGet k (setKey kvs k v) = some v := by
  unfold setKey
  split_ifs with hh
  · exact dictGet_map_overwrite_self kvs v hh
  · exact dictGet_append_single_self kvs v (by simpa using hh)

lemma dictGet_conf_meta (kvs : List (String × Json)) (now : String) :
    dictGet "confidence_score"
        (setKey (setKey kvs "analyzed_at" (Json.str now)) "model_version"
          (Json.str "gemini-1.5-flash"))
      = dictGet "confidence_score" kvs := by
  rw [dictGet_setKey_ne _ _ (by decide), dictGet_setKey_ne _ _ (by decide)]

lemma analyze_ok (raw : List Char) (now : String) (kvs : List (String × Json)) (q : ℚ)
    (hp : json_loads (stripFences raw) = some (Json.obj kvs))
    (hc : confidence_value (dictGet "confidence_score" kvs) = some q) :
    analyze_prescription raw now = Except.ok
      (setKey (setKey (setKey kvs "analyzed_at" (Json.str now)) "model_version"
        (Json.str "gemini-1.5-flash")) "accuracy_percentage"
        (Json.num (pyRound2 (q * 100)))) := by
  unfold analyze_prescription
  dsimp only
  rw [hp]
  dsimp only
  rw [dictGet_conf_meta, hc]

/-- C8: whenever the stripped-and-trimmed model text fails JSON parsing, the
normalizer fails with `MalformedPayload` carrying exactly that stripped text
as its diagnostic payload — this is the only outcome of a parse failure. -/
theorem C8_malformed_payload (raw : List Char) (now : String)
    (h : json_loads (stripFences raw) = none) :
    analyze_prescription raw now
      = Except.error (NormError.malformedPayload (stripFences raw).asString) := by
  unfold analyze_prescription
  dsimp only
  rw [h]

/-- Witness for C8 at the concrete raw text of Scenario C. -/
theorem C8_witness :
    json_loads (stripFences (String.data "not json at all")) = none
    ∧ analyze_prescription (String.data "not json at all") "T"
        = Except.error (NormError.malformedPayload "not json at all") :=
  ⟨rfl, C8_malformed_payload (String.data "not json at all") "T" rfl⟩

/-- C1 is refuted on Scenario A itself: the normalizer adds only its three
own keys; it does not populate the absent optional fields — in particular the
produced record carries no `confidence_score` (and no `doctor_name`) key at
all, while the claim requires `confidence_score = 0.0` to be present. -/
theorem C1_counterexample :
    analyze_prescription (String.data "```json\n\x7b\"patient_name\":\"\",\"medications\":[]\x7d\n```") "T"
      = Except.ok [("patient_name", Json.str ""), ("medications", Json.arr []),
          ("analyzed_at", Json.str "T"), ("model_version", Json.str "gemini-1.5-flash"),
          ("accuracy_percentage", Json.num 0)]
    ∧ dictGet "confidence_score"
        [("patient_name", Json.str ""), ("medications", Json.arr []),
          ("analyzed_at", Json.str "T"), ("model_version", Json.str "gemini-1.5-flash"),
          ("accuracy_percentage", Json.num 0)] = none
    ∧ dictGet "doctor_name"
        [("patient_name", Json.str ""), ("medications", Json.arr []),
          ("analyzed_at", Json.str "T"), ("model_version", Json.str "gemini-1.5-flash"),
          ("accuracy_percentage", Json.num 0)] = none := by
  refine ⟨by with_unfolding_all rfl, rfl, rfl⟩

/-- C1 amended: a successfully parsed payload keeps exactly its own keys;
absent optional fields stay absent, and the absent `confidence_score` is read
as 0.0 only to compute `accuracy_percentage`.  On Scenario A the record is
`patient_name=""`, `medications=[]`, the three normalizer-owned fields with
`accuracy_percentage=0.0`, and no `confidence_score` key. -/
theorem C1_amended_no_defaulting (now : String) :
    analyze_prescription (String.data "```json\n\x7b\"patient_name\":\"\",\"medications\":[]\x7d\n```") now
      = Except.ok [("patient_name", Json.str ""), ("medications", Json.arr []),
          ("analyzed_at", Json.str now), ("model_version", Json.str "gemini-1.5-flash"),
          ("accuracy_percentage", Json.num 0)] := by
  with_unfolding_all rfl

/-- C4 is refuted: an out-of-range `confidence_score` is *not* replaced by
0.0 — the payload value 2.0 is used verbatim and `accuracy_percentage`
becomes 200.0, not 0.0. -/
theorem C4_counterexample :
    analyze_prescription (String.data "\x7b\"confidence_score\":2.0\x7d") "T"
      = Except.ok [("confidence_score", Json.num 2), ("analyzed_at", Json.str "T"),
          ("model_version", Json.str "gemini-1.5-flash"), ("accuracy_percentage", Json.num 200)]
    ∧ dictGet "accuracy_percentage"
        [("confidence_score", Json.num 2), ("analyzed_at", Json.str "T"),
          ("model_version", Json.str "gemini-1.5-flash"), ("accuracy_percentage", Json.num 200)]
        = some (Json.num 200)
    ∧ (200 : ℚ) ≠ 0 := by
  refine ⟨by with_unfolding_all rfl, rfl, by norm_num⟩

/-- C4 amended: `confidence_score` is defaulted to 0.0 only when it is absent
from the parsed payload; a numeric value present in the payload — in range or
not — is used verbatim, so `accuracy_percentage = round(confidence*100, 2)`
in every successful case. -/
theorem C4_amended_default_only_absent (raw : List Char) (now : String)
    (kvs : List (String × Json))
    (hp : json_loads (stripFences raw) = some (Json.obj kvs)) :
    (dictGet "confidence_score" kvs = none →
      ∀ res, analyze_prescription raw now = Except.ok res →
        dictGet "accuracy_percentage" res = some (Json.num 0))
    ∧ (∀ q : ℚ, dictGet "confidence_score" kvs = some (Json.num q) →
      ∀ res, analyze_prescription raw now = Except.ok res →
        dictGet "accuracy_percentage" res = some (Json.num (pyRound2 (q * 100)))) := by
  constructor
  · intro hnone res hok
    have hconf : confidence_value (dictGet "confidence_score" kvs) = some 0 := by
      rw [hnone]
      rfl
    rw [analyze_ok raw now kvs 0 hp hconf] at hok
    have hres := (Except.ok.injEq _ _).mp hok
    rw [← hres, dictGet_setKey_self]
    norm_num [pyRound2, roundHalfEven]
  · intro q hq res hok
    have hconf : confidence_value (dictGet "confidence_score" kvs) = some q := by
      rw [hq]
      rfl
    rw [analyze_ok raw now kvs q hp hconf] at hok
    have hres := (Except.ok.injEq _ _).mp hok
    rw [← hres, dictGet_setKey_self]

/-- Witness for C4 amended at a payload with `confidence_score` 2.0. -/
theorem C4_amended_witness :
    json_loads (stripFences (String.data "\x7b\"confidence_score\":2.0\x7d"))
        = some (Json.obj [("confidence_score", Json.num 2)])
    ∧ dictGet "accuracy_percentage"
        [("confidence_score", Json.num 2), ("analyzed_at", Json.str "T"),
          ("model_version", Json.str "gemini-1.5-flash"), ("accuracy_percentage", Json.num 200)]
        = some (Json.num (pyRound2 ((2 : ℚ) * 100))) :=
  ⟨by with_unfolding_all rfl,
    (C4_amended_default_only_absent (String.data "\x7b\"confidence_score\":2.0\x7d") "T"
        [("confidence_score", Json.num 2)] (by with_unfolding_all rfl)).2 2 rfl
      [("confidence_score", Json.num 2), ("analyzed_at", Json.str "T"),
        ("model_version", Json.str "gemini-1.5-flash"), ("accuracy_percentage", Json.num 200)]
      (by with_unfolding_all rfl)⟩

/-- C5: for any parsed payload whose `confidence_score` is a number in
[0, 1], the produced record's `accuracy_percentage` equals
`round(confidence_score * 100, 2)` — whatever `accuracy_percentage` value the
raw payload itself carried is overwritten. -/
theorem C5_accuracy_recomputed (raw : List Char) (now : String)
    (kvs : List (String × Json)) (q : ℚ) (res : List (String × Json))
    (hp : json_loads (stripFences raw) = some (Json.obj kvs))
    (hq : dictGet "confidence_score" kvs = some (Json.num q))
    (h0 : 0 ≤ q) (h1 : q ≤ 1)
    (hok : analyze_prescription raw now = Except.ok res) :
    dictGet "accuracy_percentage" res = some (Json.num (pyRound2 (q * 100))) := by
  have hconf : confidence_value (dictGet "confidence_score" kvs) = some q := by
    rw [hq]
    rfl
  rw [analyze_ok raw now kvs q hp hconf] at hok
  have hres := (Except.ok.injEq _ _).mp hok
  rw [← hres, dictGet_setKey_self]

/-- Witness for C5: payload with confidence 0.5 and a bogus
`accuracy_percentage` of 99; the record carries 50.0 instead. -/
theorem C5_witness :
    (0 : ℚ) ≤ 1 / 2 ∧ (1 / 2 : ℚ) ≤ 1
    ∧ json_loads (stripFences (String.data "\x7b\"confidence_score\":0.5,\"accuracy_percentage\":99\x7d"))
        = some (Json.obj [("confidence_score", Json.num (1 / 2)), ("accuracy_percentage", Json.num 99)])
    ∧ dictGet "accuracy_percentage"
        [("confidence_score", Json.num (1 / 2)), ("accuracy_percentage", Json.num 50),
          ("analyzed_at", Json.str "T"), ("model_version", Json.str "gemini-1.5-flash")]
        = some (Json.num (pyRound2 ((1 / 2 : ℚ) * 100))) :=
  ⟨by norm_num, by norm_num, by with_unfolding_all rfl,
    C5_accuracy_recomputed (String.data "\x7b\"confidence_score\":0.5,\"accuracy_percentage\":99\x7d") "T"
      [("confidence_score", Json.num (1 / 2)), ("accuracy_percentage", Json.num 99)] (1 / 2)
      [("confidence_score", Json.num (1 / 2)), ("accuracy_percentage", Json.num 50),
        ("analyzed_at", Json.str "T"), ("model_version", Json.str "gemini-1.5-flash")]
      (by with_unfolding_all rfl) (by with_unfolding_all rfl) (by norm_num) (by norm_num)
      (by with_unfolding_all rfl)⟩

/-- C10: a successful normalization keeps every key of the parsed payload
with its parsed value — extra, unexpected keys included — except exactly the
three normalizer-owned keys `analyzed_at`, `model_version` and
`accuracy_percentage`, which are set by the normalizer (overwriting any
payload value). -/
theorem C10_frame (raw : List Char) (now : String)
    (kvs res : List (String × Json))
    (hp : json_loads (stripFences raw) = some (Json.obj kvs))
    (hok : analyze_prescription raw now = Except.ok res) :
    (∀ k, k ≠ "analyzed_at" → k ≠ "model_version" → k ≠ "accuracy_percentage" →
        dictGet k res = dictGet k kvs)
    ∧ dictGet "analyzed_at" res = some (Json.str now)
    ∧ dictGet "model_version" res = some (Json.str "gemini-1.5-flash")
    ∧ (∃ q : ℚ, dictGet "accuracy_percentage" res = some (Json.num q)) := by
  unfold analyze_prescription at hok
  dsimp only at hok
  rw [hp] at hok
  dsimp only at hok
  rw [dictGet_conf_meta] at hok
  cases hc : confidence_value (dictGet "confidence_score" kvs) with
  | none =>
    rw [hc] at hok
    exact absurd hok (by simp)
  | some q =>
    rw [hc] at hok
    dsimp only at hok
    have hres := (Except.ok.injEq _ _).mp hok
    subst hres
    refine ⟨?_, ?_, ?_, ⟨pyRound2 (q * 100), ?_⟩⟩
    · intro k h1 h2 h3
      rw [dictGet_setKey_ne _ _ h3, dictGet_setKey_ne _ _ h2, dictGet_setKey_ne _ _ h1]
    · rw [dictGet_setKey_ne _ _ (by decide), dictGet_setKey_ne _ _ (by decide),
        dictGet_setKey_self]
    · rw [dictGet_setKey_ne _ _ (by decide), dictGet_setKey_self]
    · rw [dictGet_setKey_self]

/-- Witness for C10 at a payload with an invented extra key `foo` and a bogus
`accuracy_percentage`. -/
theorem C10_witness :
    json_loads (stripFences (String.data "\x7b\"foo\":1,\"accuracy_percentage\":5\x7d"))
        = some (Json.obj [("foo", Json.num 1), ("accuracy_percentage", Json.num 5)])
    ∧ dictGet "foo"
        [("foo", Json.num 1), ("accuracy_percentage", Json.num 0),
          ("analyzed_at", Json.str "T"), ("model_version", Json.str "gemini-1.5-flash")]
        = dictGet "foo" [("foo", Json.num 1), ("accuracy_percentage", Json.num 5)] :=
  ⟨by with_unfolding_all rfl,
    (C10_frame (String.data "\x7b\"foo\":1,\"accuracy_percentage\":5\x7d") "T"
        [("foo", Json.num 1), ("accuracy_percentage", Json.num 5)]
        [("foo", Json.num 1), ("accuracy_percentage", Json.num 0),
          ("analyzed_at", Json.str "T"), ("model_version", Json.str "gemini-1.5-flash")]
        (by with_unfolding_all rfl) (by with_unfolding_all rfl)).1
      "foo" (by decide) (by decide) (by decide)⟩

end SmartRx
